import Mathlib

/-!
Verification development for the neonchat-bridge core: the Line Decoder /
Executor event pipeline (dist/executor.js, src/executor.ts) and the
Session/Connection Manager (dist/connection.js).

The embedding is shallow: byte/text buffers are `List Char`, the JSON parser
of the platform (`JSON.parse`) is an abstract function parameter
`parse : List Char → Option ClaudeStreamMessage`, and the single-threaded
event-driven control flow is modelled as explicit step functions on record
states.  JSON numbers that the code only copies or defaults (`|| 0`) are
modelled as `Int`.
-/

/-! ## Decoded stream messages (executor.js: ClaudeStreamMessage) -/

/-- One item of a `content` array of a decoded stream message. -/
structure ContentItem where
  type : String
  text : Option String
deriving DecidableEq

/-- The nested `message` object of a decoded stream message
(`msg.message.role`, `msg.message.content` as read by connection.js). -/
structure NestedMsg where
  role : Option String
  content : Option (List ContentItem)
deriving DecidableEq

/-- A decoded JSON object from the agent's stream-json output
(executor.js `ClaudeStreamMessage`), restricted to the fields the
bridge reads. -/
structure ClaudeStreamMessage where
  type : String
  subtype : Option String
  role : Option String
  content : Option (List ContentItem)
  message : Option NestedMsg
  session_id : Option String
  tools : Option (List String)
  result : Option String
  total_cost_usd : Option Int
  duration_ms : Option Int
  num_turns : Option Int
  is_error : Option Bool
deriving DecidableEq

/-- The terminal result record built from a `type == "result"` line
(executor.js `ClaudeResult`). -/
structure ClaudeResult where
  session_id : String
  result : String
  cost_usd : Int
  duration_ms : Int
  num_turns : Int
  is_error : Bool
deriving DecidableEq

/-- JS truthiness of an optional string: present and non-empty. -/
def strTruthy : Option String → Bool
  | none => false
  | some s => !(s == "")

/-- JS `a || b` on an optional string with a string fallback. -/
def strOr (a : Option String) (b : String) : String :=
  match a with
  | some s => if s == "" then b else s
  | none => b

/-! ## Line Decoder (executor.js processBuffer) -/

/-- Splits buffered text at newlines exactly as
`const lines = this.buffer.split('\n'); this.buffer = lines.pop() || '';`
does: the first component is the list of newline-terminated lines in order,
the second is the retained fragment after the last newline. -/
def splitLines : List Char → List (List Char) × List Char
  | [] => ([], [])
  | c :: rest =>
    if c = '\n' then ([] :: (splitLines rest).1, (splitLines rest).2)
    else
      match splitLines rest with
      | ([], r) => ([], c :: r)
      | (l :: ls, r) => ((c :: l) :: ls, r)

/-- ASCII whitespace recognised by `String.prototype.trim` that can occur
in the agent's output lines. -/
def isWsChar (c : Char) : Bool := c == ' ' || c == '\t' || c == '\r' || c == '\n'

/-- Models `line.trim()`. -/
def trimChars (l : List Char) : List Char :=
  ((l.dropWhile isWsChar).reverse.dropWhile isWsChar).reverse

/-- Session-id capture per decoded line (executor.js processBuffer):
`if (msg.type === 'init' || msg.session_id) this.sessionId = msg.session_id || this.sessionId;` -/
def updateSessionId (sid : String) (m : ClaudeStreamMessage) : String :=
  if m.type == "init" || strTruthy m.session_id then
    match m.session_id with
    | some s => if s == "" then sid else s
    | none => sid
  else sid

/-- The `ClaudeResult` constructed for a `type == "result"` line, using the
session id as updated by that same line. -/
def resultOf (sid : String) (m : ClaudeStreamMessage) : ClaudeResult :=
  { session_id := sid
    result := m.result.getD ""
    cost_usd := m.total_cost_usd.getD 0
    duration_ms := m.duration_ms.getD 0
    num_turns := m.num_turns.getD 0
    is_error := m.is_error.getD false }

/-- Events emitted by the executor's line interpretation: a `message` event
for every parsed line, plus a `result` event for `type == "result"` lines. -/
inductive ExecEmit
  | message (m : ClaudeStreamMessage)
  | result (r : ClaudeResult)
deriving DecidableEq

/-- Handling of one successfully parsed line: capture the session id, emit
the message event, and emit the result event for result-typed lines. -/
def procLine (sid : String) (m : ClaudeStreamMessage) : String × List ExecEmit :=
  let sid' := updateSessionId sid m
  (sid', ExecEmit.message m :: (if m.type == "result" then [ExecEmit.result (resultOf sid' m)] else []))

/-- The loop body of processBuffer over the complete lines: empty (after
trim) lines are skipped, non-JSON lines are silently dropped. -/
def procLines (parse : List Char → Option ClaudeStreamMessage) :
    String → List (List Char) → String × List ExecEmit
  | sid, [] => (sid, [])
  | sid, l :: ls =>
    let t := trimChars l
    if t.isEmpty then procLines parse sid ls
    else
      match parse t with
      | none => procLines parse sid ls
      | some m =>
        let r := procLine sid m
        let rest := procLines parse r.1 ls
        (rest.1, r.2 ++ rest.2)

/-- Decoder state of one executor: the current session id and the retained
buffer fragment. -/
structure DecState where
  sessionId : String
  buffer : List Char
deriving DecidableEq

/-- One call of `processBuffer()`: split the buffer, keep the trailing
fragment, interpret each complete line. -/
def processBuffer (parse : List Char → Option ClaudeStreamMessage) (st : DecState) :
    DecState × List ExecEmit :=
  let s := splitLines st.buffer
  let r := procLines parse st.sessionId s.1
  ({ sessionId := r.1, buffer := s.2 }, r.2)

/-- `this.buffer += chunk; this.processBuffer();` — one poll-interval
delivery of newly read bytes. -/
def feed (parse : List Char → Option ClaudeStreamMessage) (st : DecState) (chunk : List Char) :
    DecState × List ExecEmit :=
  processBuffer parse { st with buffer := st.buffer ++ chunk }

/-- Feeding a sequence of chunks one at a time, collecting all emitted
events in order. -/
def feedMany (parse : List Char → Option ClaudeStreamMessage) :
    DecState → List (List Char) → DecState × List ExecEmit
  | st, [] => (st, [])
  | st, c :: cs =>
    let r := feed parse st c
    let rest := feedMany parse r.1 cs
    (rest.1, r.2 ++ rest.2)

/-- The close handler's final flush (executor.js close handler): append
the remaining bytes read from the sink file, then run processBuffer once. -/
def closeStep (parse : List Char → Option ClaudeStreamMessage) (st : DecState)
    (tail : List Char) : DecState × List ExecEmit :=
  feed parse st tail

/-- Full pipeline, chunked: start with an empty buffer, feed the chunks one
at a time, then perform the final flush. -/
def runChunked (parse : List Char → Option ClaudeStreamMessage)
    (chunks : List (List Char)) : List ExecEmit :=
  let r := feedMany parse { sessionId := "", buffer := [] } chunks
  r.2 ++ (closeStep parse r.1 []).2

/-- Full pipeline, unchunked: the whole stream arrives as one chunk,
followed by the same final flush. -/
def runWhole (parse : List Char → Option ClaudeStreamMessage)
    (stream : List Char) : List ExecEmit :=
  let r := feed parse { sessionId := "", buffer := [] } stream
  r.2 ++ (closeStep parse r.1 []).2

/-! ## Subprocess and executor lifecycle (executor.js) -/

/-- Node `ChildProcess` observable state: `alive` is whether the OS process
is still running; `killed` models `ChildProcess.killed`, which Node sets
only after `kill()` successfully delivers a signal — natural exit leaves it
`false`. -/
structure ProcState where
  alive : Bool
  killed : Bool
deriving DecidableEq

/-- `this.process.kill('SIGTERM')`: signal delivery succeeds (and sets
`killed`) only while the process is alive; on an exited process the send
fails silently and the state is unchanged. -/
def killSig (p : ProcState) : ProcState :=
  if p.alive then { p with killed := true } else p

/-- Executor `cancel()` applied to the `this.process` field:
`if (this.process && !this.process.killed) this.process.kill('SIGTERM');`.
It is total — it never raises. -/
def cancelProc : Option ProcState → Option ProcState
  | none => none
  | some p => if p.killed then some p else some (killSig p)

/-- Error payloads carried by executor `error` events: each constructor
stands for one human-readable message template of the source. -/
inductive ErrMsg
  /-- `Execution timed out after ...ms` (the timeout timer). -/
  | timeoutAfter (ms : Nat)
  /-- A spawn / preflight failure message. -/
  | spawnFail (text : String)
deriving DecidableEq

/-- One executor instance as bound to the Connection Manager: the request
id its relay closures were created with, its `this.process`, and its
current session id. -/
structure ExecBinding where
  requestId : String
  procSt : Option ProcState
  sessionId : String
deriving DecidableEq

/-- Executor `cancel()` at the instance level. -/
def cancelE (e : ExecBinding) : ExecBinding :=
  { e with procSt := cancelProc e.procSt }

/-- The one-shot timeout timer callback (executor.js):
`if (this.process && !this.process.killed) { this.process.kill('SIGTERM');
emit('error', timed out) }`. -/
def timerFire (ms : Nat) (e : ExecBinding) : ExecBinding × List ErrMsg :=
  match e.procSt with
  | none => (e, [])
  | some p =>
    if p.killed then (e, [])
    else ({ e with procSt := some (killSig p) }, [ErrMsg.timeoutAfter ms])

/-! ## Connection Manager (connection.js) -/

/-- `currentStatus` values that connection.js assigns. -/
inductive AgentStatus
  | online
  | busy
deriving DecidableEq

/-- An inbound command message (connection.js handleMessage); `type` is kept
as a string to mirror the switch with its default branch. -/
structure Command where
  type : String
  request_id : String
  session_id : Option String := none
  prompt : String := ""
  working_directory : Option String := none
  allowed_tools : Option (List String) := none
  path : Option String := none
deriving DecidableEq

/-- The display body of a stream-kind outbound message (role, flattened
text content, metadata). -/
structure StreamBody where
  role : String
  content : String
  raw_type : String
  subtype : Option String
  tools : Option (List String)
deriving DecidableEq

/-- Payload of a result-kind outbound message: either a terminal
ClaudeResult relay or the cancellation confirmation
(`Command cancelled by user`). -/
inductive ResultPayload
  | execResult (r : ClaudeResult)
  | cancelled
deriving DecidableEq

/-- Error-kind payloads; each constructor stands for one error string
template of connection.js. -/
inductive ErrorText
  /-- `Agent is busy with another command. Cancel it first or wait.` -/
  | busy
  /-- `Unknown command type: ...` -/
  | unknownType (t : String)
  /-- `Claude Code process exited with code ...` plus optional diagnostics. -/
  | exitReport (code : Option Int) (diag : Option String)
  /-- A forwarded executor error message. -/
  | execErr (e : ErrMsg)
deriving DecidableEq

/-- One entry of a file_browse_result. -/
structure FileEntry where
  name : String
  path : String
  isDirectory : Bool
deriving DecidableEq

/-- Outbound messages sent over the WebSocket, correlated by request_id. -/
inductive Outbound
  | stream (request_id : String) (session_id : String) (body : StreamBody)
  | result (request_id : String) (payload : ResultPayload)
  | error (request_id : String) (e : ErrorText)
  | browseRes (request_id : String) (path : String) (entries : List FileEntry)
      (err : Option String)
deriving DecidableEq

/-- Connection Manager state (the fields of connection.js touched by
command dispatch and the executor relay closures). -/
structure MgrState where
  status : AgentStatus
  executor : Option ExecBinding
  currentSessionId : Option String
  reconnectDelay : Nat
deriving DecidableEq

/-- The content array selected for display text:
`msg.message?.content || msg.content` (an array is always truthy in JS,
so a present nested array — even empty — wins). -/
def contentArrayOf (m : ClaudeStreamMessage) : Option (List ContentItem) :=
  match m.message with
  | some mm =>
    match mm.content with
    | some arr => some arr
    | none => m.content
  | none => m.content

/-- `contentArray?.filter(c => c.type === 'text').map(c => c.text).join('') || ''`. -/
def textContentOf (m : ClaudeStreamMessage) : String :=
  match contentArrayOf m with
  | none => ""
  | some arr => String.join ((arr.filter (fun c => c.type == "text")).map (fun c => c.text.getD ""))

/-- `messageContent?.role || msg.role || msg.type || 'system'`. -/
def roleOf (m : ClaudeStreamMessage) : String :=
  strOr (m.message.bind (fun mm => mm.role)) (strOr m.role (strOr (some m.type) "system"))

/-- The stream-kind body built by the `message` relay closure. -/
def streamBodyOf (m : ClaudeStreamMessage) : StreamBody :=
  { role := roleOf m
    content := textContentOf m
    raw_type := m.type
    subtype := m.subtype
    tools := m.tools }

/-- Events of the bound executor as consumed by the relay closures. -/
inductive ExecEvent
  | msg (m : ClaudeStreamMessage)
  | res (r : ClaudeResult)
  | errored (e : ErrMsg)
  | exited (code : Option Int) (diag : Option String)
deriving DecidableEq

/-- Whether an executor event is terminal (result, error, or exit). -/
def isTerminalEv : ExecEvent → Bool
  | ExecEvent.msg _ => false
  | _ => true

/-- The `message` relay closure: the executor has just captured the line's
session id; the manager forwards a stream message with
`this.executor?.getSessionId()`. -/
def onExecMessage (s : MgrState) (b : ExecBinding) (m : ClaudeStreamMessage) :
    MgrState × List Outbound :=
  let b' := { b with sessionId := updateSessionId b.sessionId m }
  ({ s with executor := some b' },
   [Outbound.stream b.requestId b'.sessionId (streamBodyOf m)])

/-- The `result` relay closure: store the session id, forward the result,
return to online. -/
def onExecResult (s : MgrState) (b : ExecBinding) (r : ClaudeResult) :
    MgrState × List Outbound :=
  ({ s with currentSessionId := some r.session_id, status := AgentStatus.online },
   [Outbound.result b.requestId (ResultPayload.execResult r)])

/-- The `error` relay closure: forward the error, return to online
(no busy check in the source). -/
def onExecError (s : MgrState) (b : ExecBinding) (e : ErrMsg) :
    MgrState × List Outbound :=
  ({ s with status := AgentStatus.online },
   [Outbound.error b.requestId (ErrorText.execErr e)])

/-- The `exit` relay closure: only if still busy, report the exit as an
error and return to online. -/
def onExecExit (s : MgrState) (b : ExecBinding) (code : Option Int)
    (diag : Option String) : MgrState × List Outbound :=
  if s.status == AgentStatus.busy then
    ({ s with status := AgentStatus.online },
     [Outbound.error b.requestId (ErrorText.exitReport code diag)])
  else (s, [])

/-- Dispatch of one event of the bound executor. -/
def stepExec (s : MgrState) (ev : ExecEvent) : MgrState × List Outbound :=
  match s.executor with
  | none => (s, [])
  | some b =>
    match ev with
    | ExecEvent.msg m => onExecMessage s b m
    | ExecEvent.res r => onExecResult s b r
    | ExecEvent.errored e => onExecError s b e
    | ExecEvent.exited code diag => onExecExit s b code diag

/-- connection.js executeCommand: the admission check (reject-not-queue)
and, on acceptance, creation and binding of a fresh executor whose
subprocess is spawned synchronously inside `execute`. -/
def executeCommandStep (s : MgrState) (c : Command) : MgrState × List Outbound :=
  if s.status == AgentStatus.busy then
    (s, [Outbound.error c.request_id ErrorText.busy])
  else
    ({ s with status := AgentStatus.busy
              executor := some { requestId := c.request_id
                                 procSt := some { alive := true, killed := false }
                                 sessionId := "" } }, [])

/-- connection.js cancelExecution: if an executor is bound, cancel it,
return to online, and confirm with a single result-kind message for the
cancel command's request id. -/
def cancelExecution (requestId : String) (s : MgrState) : MgrState × List Outbound :=
  match s.executor with
  | none => (s, [])
  | some b =>
    ({ s with executor := some (cancelE b), status := AgentStatus.online },
     [Outbound.result requestId ResultPayload.cancelled])

/-! ## file_browse (connection.js browseFiles) -/

/-- A raw directory entry as returned by `readdirSync(..., { withFileTypes: true })`. -/
structure RawEntry where
  name : String
  isDir : Bool
deriving DecidableEq

/-- The filesystem facts browseFiles consumes, as data: the resolved target
path, `resolve(targetPath, '..')`, and the readdir outcome (entries, or the
thrown error's message). -/
structure FsModel where
  target : String
  parent : String
  entries : Except String (List RawEntry)

/-- Models `name.startsWith('.')` — with a one-character prefix this is
exactly: the first character is a dot. -/
def startsDot (s : String) : Bool :=
  match s.data with
  | [] => false
  | c :: _ => c == '.'

/-- The filter of browseFiles:
`!item.name.startsWith('.') || item.name === '..'`. -/
def keepEntry (it : RawEntry) : Bool :=
  !(startsDot it.name) || it.name == ".."

/-- Maps a kept entry to a listing entry (`join(targetPath, item.name)`
modelled as slash concatenation). -/
def toFileEntry (target : String) (it : RawEntry) : FileEntry :=
  { name := it.name, path := target ++ "/" ++ it.name, isDirectory := it.isDir }

/-- Lexicographic comparison of `Nat` key lists (shorter prefix first). -/
def compareList : List Nat → List Nat → Ordering
  | [], [] => Ordering.eq
  | [], _ :: _ => Ordering.lt
  | _ :: _, [] => Ordering.gt
  | a :: as, b :: bs =>
    if a < b then Ordering.lt
    else if b < a then Ordering.gt
    else compareList as bs

/-- Primary collation key: case-folded code points. -/
def primaryKey (s : String) : List Nat := s.data.map (fun c => c.toLower.toNat)

/-- Case tie-break key: ICU root collation orders a lowercase letter before
its uppercase form when the primary keys agree. -/
def caseKey (s : String) : List Nat := s.data.map (fun c => if c.isUpper then 1 else 0)

/-- Models `a.localeCompare(b)` for ASCII file names under the default
(ICU root) locale: compare case-insensitively first, break ties by case. -/
def localeOrd (a b : String) : Ordering :=
  match compareList (primaryKey a) (primaryKey b) with
  | Ordering.eq => compareList (caseKey a) (caseKey b)
  | o => o

/-- The sort comparator of browseFiles:
directories first, then `a.name.localeCompare(b.name)`. -/
def entryCmp (a b : FileEntry) : Ordering :=
  if a.isDirectory != b.isDirectory then
    (if a.isDirectory then Ordering.lt else Ordering.gt)
  else localeOrd a.name b.name

/-- A single collation key under which `entryCmp` becomes one `compareList`
comparison (directory flag first, then the shifted primary key, a `0`
separator, then the shifted case key); used to transfer order lemmas. -/
def entryKey (e : FileEntry) : List Nat :=
  (if e.isDirectory then 0 else 1) ::
    ((primaryKey e.name).map (fun n => n + 1) ++ 0 :: (caseKey e.name).map (fun n => n + 1))

/-- Insertion of one element into a list sorted by `entryCmp` (the
comparator contract of `Array.prototype.sort`; entry names within a
directory are distinct, so any comparison sort yields this order). -/
def insertCmp (x : FileEntry) : List FileEntry → List FileEntry
  | [] => [x]
  | y :: ys => if entryCmp x y = Ordering.lt then x :: y :: ys else y :: insertCmp x ys

/-- Sorting the mapped entries with the browseFiles comparator. -/
def sortEntries (l : List FileEntry) : List FileEntry := List.foldr insertCmp [] l

/-- The prepended parent-directory entry
(`{ name: '..', path: parent, isDirectory: true }`). -/
def parentEntry (fs : FsModel) : FileEntry :=
  { name := "..", path := fs.parent, isDirectory := true }

/-- The sorted listing body (before the parent entry is prepended). -/
def browseBody (fs : FsModel) (items : List RawEntry) : List FileEntry :=
  sortEntries ((items.filter keepEntry).map (toFileEntry fs.target))

/-- connection.js browseFiles: list, filter, map, sort, prepend the parent
unless at the root (`resolve(target, '..') !== target`); on a readdir
failure the entries stay `[]` and the error message is attached.  The
function is total: the session never crashes. -/
def browseFiles (fs : FsModel) (c : Command) : Outbound :=
  match fs.entries with
  | Except.error e => Outbound.browseRes c.request_id fs.target [] (some e)
  | Except.ok items =>
    let body := browseBody fs items
    Outbound.browseRes c.request_id fs.target
      (if fs.parent != fs.target then parentEntry fs :: body else body) none

/-! ## Dispatch and traces -/

/-- connection.js handleMessage: the switch over the command type. -/
def handleMessage (fs : FsModel) (s : MgrState) (c : Command) : MgrState × List Outbound :=
  if c.type == "command" || c.type == "resume" then executeCommandStep s c
  else if c.type == "cancel" then cancelExecution c.request_id s
  else if c.type == "file_browse" then (s, [browseFiles fs c])
  else (s, [Outbound.error c.request_id (ErrorText.unknownType c.type)])

/-- An event consumed by the manager's cooperative scheduler: an inbound
command or an event of the bound executor. -/
inductive InEvent
  | inbound (c : Command)
  | fromExec (ev : ExecEvent)
deriving DecidableEq

/-- One scheduler step. -/
def stepIn (fs : FsModel) (s : MgrState) : InEvent → MgrState × List Outbound
  | InEvent.inbound c => handleMessage fs s c
  | InEvent.fromExec ev => stepExec s ev

/-- Runs a list of events, concatenating the outbound messages in order. -/
def runTrace (fs : FsModel) : MgrState → List InEvent → MgrState × List Outbound
  | s, [] => (s, [])
  | s, e :: es =>
    let r := stepIn fs s e
    let rest := runTrace fs r.1 es
    (rest.1, r.2 ++ rest.2)

/-- Whether an outbound message is a terminal report (result-kind or
error-kind) for the given request id. -/
def isTerminalFor (rid : String) : Outbound → Bool
  | Outbound.result r _ => r == rid
  | Outbound.error r _ => r == rid
  | _ => false

/-- Number of terminal reports for a request id in an outbound list. -/
def countTerminal (rid : String) (msgs : List Outbound) : Nat :=
  (msgs.filter (isTerminalFor rid)).length

/-- A cancel command with the given request id. -/
def cancelCmd (rc : String) : Command := { type := "cancel", request_id := rc }

/-! ## Concrete sample inputs used by witnesses and counterexamples -/

/-- A sample message whose lines always parse (used to instantiate the
abstract JSON parser in concrete checks). -/
def msgPlain : ClaudeStreamMessage :=
  { type := "assistant", subtype := none, role := none, content := none
    message := none, session_id := none, tools := none, result := none
    total_cost_usd := none, duration_ms := none, num_turns := none, is_error := none }

/-- A sample message carrying a non-empty session id. -/
def msgSid1 : ClaudeStreamMessage := { msgPlain with session_id := some "s1" }

/-- A parse function that accepts every line, standing in for a stream
whose final line is well-formed JSON. -/
def parseAlways : List Char → Option ClaudeStreamMessage := fun _ => some msgPlain

/-- A subprocess that has exited naturally: `kill()` was never called, so
Node's `killed` flag is still false. -/
def exitedProc : ProcState := { alive := false, killed := false }

/-- An executor whose subprocess already exited naturally. -/
def exitedExec : ExecBinding := { requestId := "r1", procSt := some exitedProc, sessionId := "s" }

/-- A live (running, not signalled) subprocess. -/
def liveProc : ProcState := { alive := true, killed := false }

/-- A busy manager state with an execution in flight for request `r1`. -/
def busyState : MgrState :=
  { status := AgentStatus.busy
    executor := some { requestId := "r1", procSt := some liveProc, sessionId := "" }
    currentSessionId := none
    reconnectDelay := 5000 }

/-- An arbitrary filesystem model for dispatch steps that do not browse. -/
def fsEmpty : FsModel := { target := "/", parent := "/", entries := Except.ok [] }

/-- The directory of the spec's ordering example: entries b.txt, A, a.txt
(all files) in a non-root directory. -/
def exampleFs : FsModel :=
  { target := "/home/u/dir"
    parent := "/home/u"
    entries := Except.ok [ { name := "b.txt", isDir := false }
                         , { name := "A", isDir := false }
                         , { name := "a.txt", isDir := false } ] }

/-- A file_browse command for the example directory. -/
def exampleCmd : Command := { type := "file_browse", request_id := "r9" }

/-- The raw entries of the example directory. -/
def exampleItems : List RawEntry :=
  [ { name := "b.txt", isDir := false }
  , { name := "A", isDir := false }
  , { name := "a.txt", isDir := false } ]

/-- A directory whose readdir fails. -/
def fsErr : FsModel :=
  { target := "/root/secret", parent := "/root", entries := Except.error "EACCES" }

/-! ## Reconnect backoff (connection.js) -/

/-- `RECONNECT_DELAY_MS`. -/
def RECONNECT_DELAY_MS : Nat := 5000

/-- `MAX_RECONNECT_DELAY_MS`. -/
def MAX_RECONNECT_DELAY_MS : Nat := 60000

/-- The backoff update written in the `catch` of `await this.connect()`
inside scheduleReconnect:
`this.reconnectDelay = Math.min(this.reconnectDelay * 2, MAX_RECONNECT_DELAY_MS);`.
This line is unreachable on a failed WebSocket attempt: `connect()` returns
a promise whose `reject` callback is never invoked (the `error` handler
only logs), so the promise never settles and the `catch` never runs. -/
def failBackoff (d : Nat) : Nat := min (d * 2) MAX_RECONNECT_DELAY_MS

/-- Reconnect-loop state: the current `reconnectDelay` and whether
`this.reconnectTimer` is set. -/
structure ReconnectState where
  reconnectDelay : Nat
  timerArmed : Bool
deriving DecidableEq

/-- connection.js scheduleReconnect: `if (this.reconnectTimer) return;`,
otherwise arm the timer for `this.reconnectDelay` ms.  The second component
is the delay the timer was armed with (`none` when the guard returned). -/
def scheduleReconnect (s : ReconnectState) : ReconnectState × Option Nat :=
  if s.timerArmed then (s, none)
  else ({ s with timerArmed := true }, some s.reconnectDelay)

/-- One failed reconnect attempt as the program actually runs it: the timer
callback first nulls `this.reconnectTimer`, then awaits `connect()`.  On a
failed WebSocket attempt that promise never settles (`reject` is never
invoked; the `error` handler only logs), so the `catch` holding
`failBackoff` is unreachable; what runs instead is the `ws` `close`
handler, which calls `scheduleReconnect()` with `reconnectDelay`
unchanged. -/
def failedAttemptStep (s : ReconnectState) : ReconnectState × Option Nat :=
  scheduleReconnect { s with timerArmed := false }

/-- The delays armed before each of `n` consecutive failed reconnect
attempts, starting from a state whose pending timer is already armed
(as after the initial disconnect's `close` handler). -/
def failureDelays : ReconnectState → Nat → List Nat
  | _, 0 => []
  | s, n + 1 =>
    let r := failedAttemptStep s
    (match r.2 with
     | some d => [d]
     | none => []) ++ failureDelays r.1 n

/-- The `open` handler's effect on the backoff and status fields:
`this.reconnectDelay = RECONNECT_DELAY_MS; this.currentStatus = 'online';`. -/
def onOpen (s : MgrState) : MgrState :=
  { s with reconnectDelay := RECONNECT_DELAY_MS, status := AgentStatus.online }

/-! ## Decoder lemmas -/

theorem splitLines_cons_nl (rest : List Char) :
    splitLines ('\n' :: rest) = ([] :: (splitLines rest).1, (splitLines rest).2) := by
  simp [splitLines]

theorem splitLines_cons_ne {c : Char} (rest : List Char) (hc : c ≠ '\n') :
    splitLines (c :: rest) =
      (match splitLines rest with
       | ([], r) => ([], c :: r)
       | (l :: ls, r) => ((c :: l) :: ls, r)) := by
  simp [splitLines, hc]

theorem splitLines_append (a b : List Char) :
    splitLines (a ++ b) =
      ((splitLines a).1 ++ (splitLines ((splitLines a).2 ++ b)).1,
       (splitLines ((splitLines a).2 ++ b)).2) := by
  induction a with
  | nil => simp [splitLines]
  | cons c a ih =>
    by_cases hc : c = '\n'
    · subst hc
      rw [List.cons_append, splitLines_cons_nl (a ++ b), splitLines_cons_nl a, ih]
      simp
    · rw [List.cons_append, splitLines_cons_ne (a ++ b) hc, ih, splitLines_cons_ne a hc]
      cases h1 : splitLines a with
      | mk la ra =>
        cases la with
        | nil =>
          cases h2 : splitLines (ra ++ b) with
          | mk lab rab =>
            cases lab with
            | nil => simp [h2, List.cons_append, splitLines_cons_ne (ra ++ b) hc]
            | cons l2 ls2 => simp [h2, List.cons_append, splitLines_cons_ne (ra ++ b) hc]
        | cons l ls => simp

theorem splitLines_snd_no_nl (l : List Char) : '\n' ∉ (splitLines l).2 := by
  induction l with
  | nil => simp [splitLines]
  | cons c rest ih =>
    by_cases hc : c = '\n'
    · subst hc; simpa [splitLines] using ih
    · cases h1 : splitLines rest with
      | mk lr rr =>
        cases lr with
        | nil =>
          simp only [splitLines, if_neg hc, h1]
          simp only [h1] at ih
          simp [List.mem_cons, hc, ih]
          intro h; exact absurd h.symm hc
        | cons l ls =>
          simp only [splitLines, if_neg hc, h1]
          simpa [h1] using ih

theorem splitLines_of_no_nl (l : List Char) (h : '\n' ∉ l) : splitLines l = ([], l) := by
  induction l with
  | nil => simp [splitLines]
  | cons c rest ih =>
    have hc : c ≠ '\n' := fun hcc => h (hcc ▸ List.mem_cons_self c rest)
    have hrest : '\n' ∉ rest := fun hr => h (List.mem_cons_of_mem c hr)
    simp [splitLines, hc, ih hrest]

theorem procLines_append (parse : List Char → Option ClaudeStreamMessage)
    (ls1 ls2 : List (List Char)) (sid : String) :
    procLines parse sid (ls1 ++ ls2) =
      ((procLines parse (procLines parse sid ls1).1 ls2).1,
       (procLines parse sid ls1).2 ++ (procLines parse (procLines parse sid ls1).1 ls2).2) := by
  induction ls1 generalizing sid with
  | nil => simp [procLines]
  | cons l ls ih =>
    by_cases ht : (trimChars l).isEmpty
    · simp [procLines, ht, ih]
    · cases hp : parse (trimChars l) with
      | none => simp [procLines, ht, hp, ih]
      | some m => simp [procLines, ht, hp, ih]

theorem feed_append (parse : List Char → Option ClaudeStreamMessage)
    (st : DecState) (c1 c2 : List Char) :
    feed parse st (c1 ++ c2) =
      ((feed parse (feed parse st c1).1 c2).1,
       (feed parse st c1).2 ++ (feed parse (feed parse st c1).1 c2).2) := by
  simp only [feed, processBuffer]
  rw [show st.buffer ++ (c1 ++ c2) = (st.buffer ++ c1) ++ c2 from
    (List.append_assoc st.buffer c1 c2).symm]
  rw [splitLines_append (st.buffer ++ c1) c2]
  simp [procLines_append]

theorem feed_nil_of_clean (parse : List Char → Option ClaudeStreamMessage)
    (st : DecState) (h : '\n' ∉ st.buffer) : feed parse st [] = (st, []) := by
  simp [feed, processBuffer, splitLines_of_no_nl st.buffer h, procLines]

theorem feed_fst_no_nl (parse : List Char → Option ClaudeStreamMessage)
    (st : DecState) (c : List Char) : '\n' ∉ (feed parse st c).1.buffer := by
  simp only [feed, processBuffer]
  exact splitLines_snd_no_nl (st.buffer ++ c)

theorem feedMany_eq_feed_flatten (parse : List Char → Option ClaudeStreamMessage)
    (chunks : List (List Char)) (st : DecState) (h : '\n' ∉ st.buffer) :
    feedMany parse st chunks = feed parse st chunks.flatten := by
  induction chunks generalizing st with
  | nil =>
    simp [feedMany, List.flatten, feed_nil_of_clean parse st h]
  | cons c cs ih =>
    have hinv : '\n' ∉ (feed parse st c).1.buffer := feed_fst_no_nl parse st c
    simp only [feedMany]
    rw [ih (feed parse st c).1 hinv, List.flatten_cons, feed_append parse st c cs.flatten]

/-! ## Session-id lemmas -/

theorem updateSessionId_ne_empty (sid : String) (m : ClaudeStreamMessage) (h : sid ≠ "") :
    updateSessionId sid m ≠ "" := by
  unfold updateSessionId
  by_cases hc : (m.type == "init" || strTruthy m.session_id) = true
  · rw [if_pos hc]
    cases hms : m.session_id with
    | none => exact h
    | some s =>
      by_cases hs : s = ""
      · simp [hs, h]
      · simp [hs]
  · rw [if_neg hc]; exact h

theorem foldl_updateSessionId_ne_empty (ms : List ClaudeStreamMessage) :
    ∀ sid : String, sid ≠ "" → List.foldl updateSessionId sid ms ≠ "" := by
  induction ms with
  | nil => intro sid h; simpa using h
  | cons m ms ih =>
    intro sid h
    simpa [List.foldl] using ih (updateSessionId sid m) (updateSessionId_ne_empty sid m h)

/-! ## Claim C2 -/

/-- C2: the Line Decoder is chunk-boundary invariant — for every stream
(in particular every well-formed NDJSON stream), every way of splitting it
into chunks, and every JSON parser, feeding the chunks one at a time
through `buffer += chunk; processBuffer()` emits the same ordered sequence
of parsed message (and result) events as feeding the whole stream at once,
the final flush included in both runs. -/
theorem c2_chunk_invariance (parse : List Char → Option ClaudeStreamMessage)
    (chunks : List (List Char)) :
    runChunked parse chunks = runWhole parse chunks.flatten := by
  unfold runChunked runWhole
  rw [feedMany_eq_feed_flatten parse chunks { sessionId := "", buffer := [] } (by simp)]

/-! ## Claim C3 -/

/-- C3 counterexample: at process exit with buffer `"x"` (a non-empty
trailing fragment with no newline) and a parser that accepts every line,
the final flush produces no candidate line, emits no message event, and
retains the fragment instead of discarding it — contrary to the claim that
the trailing fragment is attempted once as a candidate line and a
well-formed final line without a trailing newline still yields its event. -/
theorem c3_counterexample :
    parseAlways (trimChars ['x']) = some msgPlain ∧
    (splitLines ['x']).1 = [] ∧
    (closeStep parseAlways { sessionId := "", buffer := ['x'] } []).2 = [] ∧
    (closeStep parseAlways { sessionId := "", buffer := ['x'] } []).1.buffer = ['x'] := by
  refine ⟨rfl, ?_, ?_, ?_⟩ <;> decide

/-- C3 amended: on final flush at process exit the close handler runs the
line splitter once more; a trailing fragment with no newline is never
attempted as a candidate line — it is retained unchanged in the buffer and
no event is emitted for it, whatever the parser would have said. -/
theorem c3_flush_retains_fragment (parse : List Char → Option ClaudeStreamMessage)
    (st : DecState) (tail : List Char) (h : '\n' ∉ st.buffer ++ tail) :
    closeStep parse st tail = ({ sessionId := st.sessionId, buffer := st.buffer ++ tail }, []) := by
  simp [closeStep, feed, processBuffer, splitLines_of_no_nl _ h, procLines]

/-- C3 witness: the amended statement evaluated on the concrete buffer `"x"`. -/
theorem c3_flush_retains_fragment_witness :
    closeStep parseAlways { sessionId := "", buffer := ['x'] } [] =
      ({ sessionId := "", buffer := ['x'] }, []) := by
  simpa using
    c3_flush_retains_fragment parseAlways { sessionId := "", buffer := ['x'] } [] (by decide)

/-! ## Claim C6 -/

/-- C6: the code contradicts the claim that a timeout timer firing after
natural subprocess exit is a no-op.  `ChildProcess.killed` is set only by
`kill()`, never by natural exit, so the timer guard
`this.process && !this.process.killed` still passes on a naturally exited
process: the callback attempts a SIGTERM and emits a timeout error. -/
theorem c6_late_timer_not_noop :
    (timerFire 1000 exitedExec).2 = [ErrMsg.timeoutAfter 1000] ∧
    (timerFire 1000 exitedExec).1 = exitedExec ∧
    exitedProc.alive = false := by
  refine ⟨rfl, ?_, rfl⟩
  decide

/-! ## Claim C7 -/

/-- C7: the code contradicts the claimed exponential backoff.  The doubling
`Math.min(delay * 2, 60000)` sits in the `catch` of `await this.connect()`,
but `connect()`'s promise never rejects on a failed WebSocket attempt
(`reject` is never invoked; the `error` handler only logs), so the `catch`
is unreachable: a failed attempt reschedules from the `close` handler with
the delay unchanged.  The delays before N consecutive failed attempts are
therefore all the base 5000 ms — not d, 2d, 4d, … capped at 60000 as the
claim (and the code's own "exponential backoff" comment) state; already the
second delay diverges (5000 ≠ min(2^1·5000, 60000) = 10000).  The `open`
handler's reset of the delay to the base value is real but vacuous. -/
theorem c7_backoff_constant :
    (∀ d n : Nat, failureDelays { reconnectDelay := d, timerArmed := true } n
        = List.replicate n d) ∧
    failureDelays { reconnectDelay := RECONNECT_DELAY_MS, timerArmed := true } 2
      = [RECONNECT_DELAY_MS, RECONNECT_DELAY_MS] ∧
    min (2 ^ 1 * RECONNECT_DELAY_MS) MAX_RECONNECT_DELAY_MS ≠ RECONNECT_DELAY_MS ∧
    (∀ s : MgrState, (onOpen s).reconnectDelay = RECONNECT_DELAY_MS) := by
  refine ⟨?_, by decide, by decide, fun s => rfl⟩
  intro d n
  induction n with
  | zero => rfl
  | succ m ih =>
    simp [failureDelays, failedAttemptStep, scheduleReconnect, ih, List.replicate]

/-! ## Claim C9 -/

/-- C9: within one execution the tracked session id, once non-empty, is
never overwritten with an empty value by any later decoded line; a later
line carrying a non-empty session_id does overwrite it; and a line that is
neither of type `init` nor carries a (truthy) session_id leaves it
unchanged — including across any sequence of later lines. -/
theorem c9_session_id_monotone (sid : String) (m : ClaudeStreamMessage)
    (ms : List ClaudeStreamMessage) :
    (sid ≠ "" → updateSessionId sid m ≠ "") ∧
    (∀ s, m.session_id = some s → s ≠ "" → updateSessionId sid m = s) ∧
    (m.type ≠ "init" → strTruthy m.session_id = false → updateSessionId sid m = sid) ∧
    (sid ≠ "" → List.foldl updateSessionId sid ms ≠ "") := by
  refine ⟨fun h => updateSessionId_ne_empty sid m h, ?_, ?_,
    fun h => foldl_updateSessionId_ne_empty ms sid h⟩
  · intro s hms hs
    simp [updateSessionId, hms, strTruthy, hs]
  · intro hty hfalse
    simp [updateSessionId, hty, hfalse]

/-- C9 witness: evaluated at concrete inputs — a line carrying session id
`"s1"` updates `"s0"` to `"s1"`; a plain line changes nothing; no sequence
of lines empties a non-empty session id. -/
theorem c9_session_id_monotone_witness :
    updateSessionId "s0" msgSid1 ≠ "" ∧
    updateSessionId "s0" msgSid1 = "s1" ∧
    updateSessionId "s0" msgPlain = "s0" ∧
    List.foldl updateSessionId "s0" [msgPlain, msgSid1] ≠ "" := by
  refine ⟨(c9_session_id_monotone "s0" msgSid1 []).1 (by decide),
    (c9_session_id_monotone "s0" msgSid1 []).2.1 "s1" rfl (by decide),
    (c9_session_id_monotone "s0" msgPlain []).2.2.1 (by decide) (by decide),
    (c9_session_id_monotone "s0" msgPlain [msgPlain, msgSid1]).2.2.2 (by decide)⟩

/-! ## Claim C1 -/

/-- C1: admission is one-execution-at-a-time with reject-not-queue — in any
busy state, dispatching a second `command` or `resume` yields exactly one
busy error correlated to the new request id, creates no new executor,
leaves the status busy, and leaves the whole state (hence the in-flight
execution's future outcome under any continuation of events) unchanged. -/
theorem c1_busy_reject (fs : FsModel) (s : MgrState) (c : Command)
    (hb : s.status = AgentStatus.busy) (hc : c.type = "command" ∨ c.type = "resume") :
    handleMessage fs s c = (s, [Outbound.error c.request_id ErrorText.busy]) ∧
    (handleMessage fs s c).1.executor = s.executor ∧
    (handleMessage fs s c).1.status = AgentStatus.busy ∧
    ∀ evs, runTrace fs (handleMessage fs s c).1 evs = runTrace fs s evs := by
  have h1 : handleMessage fs s c = (s, [Outbound.error c.request_id ErrorText.busy]) := by
    rcases hc with h | h <;> simp [handleMessage, h, executeCommandStep, hb]
  exact ⟨h1, by rw [h1], by rw [h1]; exact hb, fun evs => by rw [h1]⟩

/-- C1 witness: a busy state with request `r1` in flight rejects a second
command `r2` with a single busy error and no state change. -/
theorem c1_busy_reject_witness :
    handleMessage fsEmpty busyState { type := "command", request_id := "r2" } =
      (busyState, [Outbound.error "r2" ErrorText.busy]) :=
  (c1_busy_reject fsEmpty busyState { type := "command", request_id := "r2" }
    rfl (Or.inl rfl)).1

/-! ## Claim C10 -/

/-- C10: a `file_browse` command bypasses the busy admission check — in any
state, busy included, it is dispatched straight to the directory listing,
produces exactly its file_browse_result (no busy rejection), and leaves the
manager state (status and active executor reference) unchanged. -/
theorem c10_file_browse_bypasses_busy (fs : FsModel) (s : MgrState) (c : Command)
    (hc : c.type = "file_browse") :
    handleMessage fs s c = (s, [browseFiles fs c]) ∧
    (handleMessage fs s c).1.status = s.status ∧
    (handleMessage fs s c).1.executor = s.executor ∧
    ∃ entries err, browseFiles fs c = Outbound.browseRes c.request_id fs.target entries err := by
  have h1 : handleMessage fs s c = (s, [browseFiles fs c]) := by
    simp [handleMessage, hc]
  refine ⟨h1, by rw [h1], by rw [h1], ?_⟩
  cases hfs : fs.entries with
  | error e => exact ⟨[], some e, by simp [browseFiles, hfs]⟩
  | ok items =>
    exact ⟨if fs.parent != fs.target then parentEntry fs :: browseBody fs items
           else browseBody fs items, none, by simp [browseFiles, hfs]⟩

/-- C10 witness: a file_browse request served while busy, state unchanged. -/
theorem c10_file_browse_bypasses_busy_witness :
    handleMessage fsEmpty busyState { type := "file_browse", request_id := "r3" } =
      (busyState, [browseFiles fsEmpty { type := "file_browse", request_id := "r3" }]) :=
  (c10_file_browse_bypasses_busy fsEmpty busyState
    { type := "file_browse", request_id := "r3" } rfl).1

/-! ## Claim C4 -/

/-- C4: cancellation is idempotent and yields at most one terminal report
per request — `cancel()` twice equals `cancel()` once; `cancel()` after a
natural exit is a no-op (and, being total, never raises); and in a trace
where an in-flight execution is cancelled twice and the subprocess then
exits, each cancel request gets exactly one result-kind confirmation, the
exit handler emits nothing (the status is already online), and no request
id receives a second terminal report. -/
theorem c4_cancel_idempotent (e : ExecBinding) (p : ProcState) (fs : FsModel)
    (s : MgrState) (b : ExecBinding) (rc1 rc2 : String) (code : Option Int)
    (diag : Option String) (hp : e.procSt = some p) (hpa : p.alive = false)
    (hx : s.executor = some b) :
    cancelE (cancelE e) = cancelE e ∧
    cancelE e = e ∧
    (runTrace fs s [InEvent.inbound (cancelCmd rc1), InEvent.inbound (cancelCmd rc2),
        InEvent.fromExec (ExecEvent.exited code diag)]).2
      = [Outbound.result rc1 ResultPayload.cancelled,
         Outbound.result rc2 ResultPayload.cancelled] ∧
    (rc1 ≠ rc2 → ∀ rid,
      countTerminal rid
        (runTrace fs s [InEvent.inbound (cancelCmd rc1), InEvent.inbound (cancelCmd rc2),
          InEvent.fromExec (ExecEvent.exited code diag)]).2 ≤ 1) := by
  have hidem : ∀ e' : ExecBinding, cancelE (cancelE e') = cancelE e' := by
    intro e'
    unfold cancelE cancelProc
    cases hps : e'.procSt with
    | none => simp
    | some q =>
      by_cases hk : q.killed
      · simp [hk]
      · by_cases ha : q.alive
        · simp [hk, killSig, ha]
        · simp [hk, killSig, ha]
  have hnoop : cancelE e = e := by
    cases e with
    | mk rq ps sid =>
      simp only at hp
      subst hp
      unfold cancelE cancelProc
      by_cases hk : p.killed
      · simp [hk]
      · simp [hk, killSig, hpa]
  have htrace :
      (runTrace fs s [InEvent.inbound (cancelCmd rc1), InEvent.inbound (cancelCmd rc2),
          InEvent.fromExec (ExecEvent.exited code diag)]).2
        = [Outbound.result rc1 ResultPayload.cancelled,
           Outbound.result rc2 ResultPayload.cancelled] := by
    simp [runTrace, stepIn, handleMessage, cancelCmd, cancelExecution, hx, stepExec, onExecExit]
  refine ⟨hidem e, hnoop, htrace, ?_⟩
  intro hne rid
  rw [htrace]
  simp only [countTerminal, List.filter, isTerminalFor]
  by_cases h1 : rc1 = rid
  · have h2 : ¬ rc2 = rid := fun h => hne (h1.trans h.symm)
    simp [beq_iff_eq.mpr h1, beq_eq_false_iff_ne.mpr h2]
  · by_cases h2 : rc2 = rid
    · simp [beq_eq_false_iff_ne.mpr h1, beq_iff_eq.mpr h2]
    · simp [beq_eq_false_iff_ne.mpr h1, beq_eq_false_iff_ne.mpr h2]

/-- C4 witness: the theorem evaluated on an executor whose subprocess
already exited and on a busy state cancelled twice before the exit event. -/
theorem c4_cancel_idempotent_witness :
    cancelE (cancelE exitedExec) = cancelE exitedExec ∧
    cancelE exitedExec = exitedExec ∧
    (runTrace fsEmpty busyState [InEvent.inbound (cancelCmd "c1"),
        InEvent.inbound (cancelCmd "c2"),
        InEvent.fromExec (ExecEvent.exited (some 0) none)]).2
      = [Outbound.result "c1" ResultPayload.cancelled,
         Outbound.result "c2" ResultPayload.cancelled] ∧
    countTerminal "r1"
      (runTrace fsEmpty busyState [InEvent.inbound (cancelCmd "c1"),
        InEvent.inbound (cancelCmd "c2"),
        InEvent.fromExec (ExecEvent.exited (some 0) none)]).2 ≤ 1 := by
  have h := c4_cancel_idempotent exitedExec exitedProc fsEmpty busyState
    { requestId := "r1", procSt := some liveProc, sessionId := "" }
    "c1" "c2" (some 0) none rfl rfl rfl
  exact ⟨h.1, h.2.1, h.2.2.1, h.2.2.2 (by decide) "r1"⟩

/-! ## Claim C5 -/

theorem runTrace_msgs_exit (fs : FsModel) (msgs : List ClaudeStreamMessage) :
    ∀ (s : MgrState) (b : ExecBinding) (code : Option Int) (diag : Option String),
      s.executor = some b → s.status = AgentStatus.busy →
      ((runTrace fs s ((msgs.map (fun m => InEvent.fromExec (ExecEvent.msg m))) ++
          [InEvent.fromExec (ExecEvent.exited code diag)])).2.filter
            (isTerminalFor b.requestId))
        = [Outbound.error b.requestId (ErrorText.exitReport code diag)] := by
  induction msgs with
  | nil =>
    intro s b code diag hx hb
    simp [runTrace, stepIn, stepExec, hx, onExecExit, hb, isTerminalFor]
  | cons m ms ih =>
    intro s b code diag hx hb
    obtain ⟨rq, ps, sid⟩ := b
    simp only [List.map_cons, List.cons_append, runTrace, stepIn, stepExec, hx, onExecMessage]
    have hrec := ih ({ s with executor := some (ExecBinding.mk rq ps (updateSessionId sid m)) })
      (ExecBinding.mk rq ps (updateSessionId sid m)) code diag rfl hb
    simp only at hrec
    simp [List.filter, isTerminalFor, hrec]

/-- C5: the agent is never left stuck in busy — after any terminal event of
the bound executor (result, error, or exit) the status is online again; an
exit reaching a still-busy manager emits exactly one error-kind outbound
message for the bound request; and over a whole trace of stream messages
followed by an exit with no result in between, that error is the single
terminal report for the request. -/
theorem c5_never_stuck_busy :
    (∀ (s : MgrState) (b : ExecBinding) (ev : ExecEvent), s.executor = some b →
      isTerminalEv ev = true → (stepExec s ev).1.status = AgentStatus.online) ∧
    (∀ (s : MgrState) (b : ExecBinding) (code : Option Int) (diag : Option String),
      s.executor = some b → s.status = AgentStatus.busy →
      (stepExec s (ExecEvent.exited code diag)).2
        = [Outbound.error b.requestId (ErrorText.exitReport code diag)]) ∧
    (∀ (fs : FsModel) (s : MgrState) (b : ExecBinding) (code : Option Int)
        (diag : Option String) (msgs : List ClaudeStreamMessage),
      s.executor = some b → s.status = AgentStatus.busy →
      ((runTrace fs s ((msgs.map (fun m => InEvent.fromExec (ExecEvent.msg m))) ++
          [InEvent.fromExec (ExecEvent.exited code diag)])).2.filter
            (isTerminalFor b.requestId))
        = [Outbound.error b.requestId (ErrorText.exitReport code diag)]) := by
  refine ⟨?_, ?_, fun fs s b code diag msgs hx hb => runTrace_msgs_exit fs msgs s b code diag hx hb⟩
  · intro s b ev hx hterm
    cases ev with
    | msg m => simp [isTerminalEv] at hterm
    | res r => simp [stepExec, hx, onExecResult]
    | errored e => simp [stepExec, hx, onExecError]
    | exited code diag =>
      cases hst : s.status with
      | online => simp [stepExec, hx, onExecExit, hst]
      | busy => simp [stepExec, hx, onExecExit, hst]
  · intro s b code diag hx hb
    simp [stepExec, hx, onExecExit, hb]

/-- C5 witness: evaluated on a busy state — one stream message, then an
exit with code 1 and captured diagnostics — exactly one error-kind
terminal for `r1`, and the status is back online after the exit. -/
theorem c5_never_stuck_busy_witness :
    (stepExec busyState (ExecEvent.exited (some 1) (some "boom"))).1.status
      = AgentStatus.online ∧
    ((runTrace fsEmpty busyState (([msgPlain].map (fun m => InEvent.fromExec (ExecEvent.msg m))) ++
        [InEvent.fromExec (ExecEvent.exited (some 1) (some "boom"))])).2.filter
          (isTerminalFor "r1"))
      = [Outbound.error "r1" (ErrorText.exitReport (some 1) (some "boom"))] := by
  refine ⟨c5_never_stuck_busy.1 busyState
      { requestId := "r1", procSt := some liveProc, sessionId := "" }
      (ExecEvent.exited (some 1) (some "boom")) rfl rfl, ?_⟩
  exact c5_never_stuck_busy.2.2 fsEmpty busyState
    { requestId := "r1", procSt := some liveProc, sessionId := "" }
    (some 1) (some "boom") [msgPlain] rfl rfl

/-! ## Comparator lemmas for the directory listing -/

theorem compareList_swap (a : List Nat) : ∀ b, compareList b a = (compareList a b).swap := by
  induction a with
  | nil => intro b; cases b <;> simp [compareList, Ordering.swap]
  | cons x as ih =>
    intro b
    cases b with
    | nil => simp [compareList, Ordering.swap]
    | cons y bs =>
      simp only [compareList]
      rcases Nat.lt_trichotomy x y with h | h | h
      · simp [h, Nat.lt_asymm h, Ordering.swap]
      · subst h
        simp [Nat.lt_irrefl, ih bs]
      · simp [h, Nat.lt_asymm h, Ordering.swap]

theorem compareList_le_trans : ∀ a b c : List Nat,
    compareList a b ≠ Ordering.gt → compareList b c ≠ Ordering.gt →
    compareList a c ≠ Ordering.gt := by
  intro a
  induction a with
  | nil =>
    intro b c _ _
    cases c <;> simp [compareList]
  | cons x as ih =>
    intro b c h1 h2
    cases b with
    | nil => simp [compareList] at h1
    | cons y bs =>
      cases c with
      | nil => simp [compareList] at h2
      | cons z cs =>
        have hxy : x ≤ y := by
          by_contra hh
          push_neg at hh
          simp [compareList, show ¬ x < y by omega, show y < x by omega] at h1
        have hyz : y ≤ z := by
          by_contra hh
          push_neg at hh
          simp [compareList, show ¬ y < z by omega, show z < y by omega] at h2
        simp only [compareList] at h1 h2 ⊢
        by_cases hxz : x < z
        · simp [hxz]
        · have hxz' : x = z := by omega
          subst hxz'
          have hxy' : x = y := by omega
          subst hxy'
          simp only [Nat.lt_irrefl, if_false] at h1 h2 ⊢
          exact ih bs cs h1 h2

theorem compareList_map_succ (a : List Nat) : ∀ b : List Nat,
    compareList (a.map (fun n => n + 1)) (b.map (fun n => n + 1)) = compareList a b := by
  induction a with
  | nil => intro b; cases b <;> simp [compareList]
  | cons x as ih =>
    intro b
    cases b with
    | nil => simp [compareList]
    | cons y bs =>
      by_cases h1 : x < y
      · simp [compareList, h1, show x + 1 < y + 1 by omega]
      · by_cases h2 : y < x
        · simp [compareList, h1, h2, show ¬ x + 1 < y + 1 by omega,
            show y + 1 < x + 1 by omega]
        · simp [compareList, h1, h2, show ¬ x + 1 < y + 1 by omega,
            show ¬ y + 1 < x + 1 by omega, ih bs]

theorem compareList_sep (p1 : List Nat) : ∀ (p2 c1 c2 : List Nat),
    (∀ n ∈ p1, 1 ≤ n) → (∀ n ∈ p2, 1 ≤ n) →
    compareList (p1 ++ 0 :: c1) (p2 ++ 0 :: c2) =
      (match compareList p1 p2 with
       | Ordering.eq => compareList c1 c2
       | o => o) := by
  induction p1 with
  | nil =>
    intro p2 c1 c2 _ h2
    cases p2 with
    | nil => simp [compareList]
    | cons y ys =>
      have hy : 1 ≤ y := h2 y (List.mem_cons_self y ys)
      simp [compareList, show (0:Nat) < y by omega]
  | cons x xs ih =>
    intro p2 c1 c2 h1 h2
    have hx : 1 ≤ x := h1 x (List.mem_cons_self x xs)
    cases p2 with
    | nil => simp [compareList, show ¬ x < 0 by omega, show 0 < x by omega]
    | cons y ys =>
      simp only [List.cons_append, compareList]
      by_cases hxy : x < y
      · simp [hxy]
      · by_cases hyx : y < x
        · simp [hxy, hyx]
        · simp only [hxy, hyx, if_false]
          exact ih ys c1 c2 (fun n hn => h1 n (List.mem_cons_of_mem x hn))
            (fun n hn => h2 n (List.mem_cons_of_mem y hn))

theorem entryCmp_eq_key (a b : FileEntry) :
    entryCmp a b = compareList (entryKey a) (entryKey b) := by
  obtain ⟨an, ap, ad⟩ := a
  obtain ⟨bn, bp, bd⟩ := b
  have hp1 : ∀ n ∈ (primaryKey an).map (fun n => n + 1), 1 ≤ n := by
    intro n hn
    simp only [List.mem_map] at hn
    omega
  have hp2 : ∀ n ∈ (primaryKey bn).map (fun n => n + 1), 1 ≤ n := by
    intro n hn
    simp only [List.mem_map] at hn
    omega
  cases ad <;> cases bd <;>
    simp only [entryCmp, entryKey, localeOrd, compareList] <;> norm_num
  · rw [compareList_sep _ _ _ _ hp1 hp2, compareList_map_succ, compareList_map_succ]
  · rw [compareList_sep _ _ _ _ hp1 hp2, compareList_map_succ, compareList_map_succ]

theorem entryCmp_not_gt_trans {a b c : FileEntry} (h1 : entryCmp a b ≠ Ordering.gt)
    (h2 : entryCmp b c ≠ Ordering.gt) : entryCmp a c ≠ Ordering.gt := by
  rw [entryCmp_eq_key] at h1 h2 ⊢
  exact compareList_le_trans _ _ _ h1 h2

theorem entryCmp_swap (a b : FileEntry) : entryCmp b a = (entryCmp a b).swap := by
  rw [entryCmp_eq_key, entryCmp_eq_key, compareList_swap]

theorem entryCmp_not_gt_of_not_lt {x y : FileEntry} (h : ¬ entryCmp x y = Ordering.lt) :
    entryCmp y x ≠ Ordering.gt := by
  rw [entryCmp_swap]
  cases hxy : entryCmp x y <;> simp [Ordering.swap, hxy] at h ⊢

theorem mem_insertCmp (x : FileEntry) : ∀ (l : List FileEntry) (a : FileEntry),
    a ∈ insertCmp x l ↔ a = x ∨ a ∈ l := by
  intro l
  induction l with
  | nil => intro a; simp [insertCmp]
  | cons y ys ih =>
    intro a
    by_cases h : entryCmp x y = Ordering.lt
    · simp only [insertCmp, if_pos h, List.mem_cons]
    · simp only [insertCmp, if_neg h, List.mem_cons, ih]
      tauto

theorem insertCmp_perm (x : FileEntry) : ∀ l : List FileEntry,
    (insertCmp x l).Perm (x :: l) := by
  intro l
  induction l with
  | nil => simp [insertCmp]
  | cons y ys ih =>
    by_cases h : entryCmp x y = Ordering.lt
    · rw [insertCmp, if_pos h]
    · rw [insertCmp, if_neg h]
      exact (List.Perm.cons y ih).trans (List.Perm.swap x y ys)

theorem sortEntries_perm (l : List FileEntry) : (sortEntries l).Perm l := by
  induction l with
  | nil => simp [sortEntries]
  | cons x xs ih =>
    exact (insertCmp_perm x (sortEntries xs)).trans (List.Perm.cons x ih)

theorem pairwise_insertCmp (x : FileEntry) : ∀ l : List FileEntry,
    l.Pairwise (fun a b => entryCmp a b ≠ Ordering.gt) →
    (insertCmp x l).Pairwise (fun a b => entryCmp a b ≠ Ordering.gt) := by
  intro l
  induction l with
  | nil => intro _; simp [insertCmp]
  | cons y ys ih =>
    intro h
    rw [List.pairwise_cons] at h
    obtain ⟨hy, hys⟩ := h
    by_cases hlt : entryCmp x y = Ordering.lt
    · rw [insertCmp, if_pos hlt, List.pairwise_cons]
      refine ⟨?_, List.pairwise_cons.mpr ⟨hy, hys⟩⟩
      intro z hz
      rcases List.mem_cons.mp hz with rfl | hz'
      · rw [hlt]; simp
      · exact entryCmp_not_gt_trans (by rw [hlt]; simp) (hy z hz')
    · rw [insertCmp, if_neg hlt, List.pairwise_cons]
      refine ⟨?_, ih hys⟩
      intro z hz
      rcases (mem_insertCmp x ys z).mp hz with rfl | hz'
      · exact entryCmp_not_gt_of_not_lt hlt
      · exact hy z hz'

theorem pairwise_sortEntries (l : List FileEntry) :
    (sortEntries l).Pairwise (fun a b => entryCmp a b ≠ Ordering.gt) := by
  induction l with
  | nil => simp [sortEntries]
  | cons x xs ih => exact pairwise_insertCmp x (sortEntries xs) ih

theorem filter_keepEntry_eq (items : List RawEntry) (h : ∀ it ∈ items, it.name ≠ "..") :
    items.filter keepEntry = items.filter (fun it => !(startsDot it.name)) := by
  induction items with
  | nil => rfl
  | cons it its ih =>
    have hne : it.name ≠ ".." := h it (List.mem_cons_self it its)
    have hrest := ih (fun x hx => h x (List.mem_cons_of_mem it hx))
    simp [List.filter, keepEntry, beq_eq_false_iff_ne.mpr hne, hrest]

/-! ## Claim C8 -/

/-- C8: for every readable target directory the file_browse listing is
exactly the kept (non-dot-prefixed) entries — a permutation of the
filtered, mapped readdir entries, and equal to the plain non-dot filter
whenever readdir returns no `..` entry — sorted so that directories come
before files and, within a group, names ascend in the listing's name order
(the code's locale comparison), with a parent entry prepended exactly when
the target is not the filesystem root; the spec's example directory
{b.txt, A, a.txt} lists as [parent, A, a.txt, b.txt]; and a readdir
failure produces a single result carrying the error, the session never
crashing (browseFiles is total). -/
theorem c8_file_browse_listing :
    (∀ (fs : FsModel) (c : Command) (items : List RawEntry), fs.entries = Except.ok items →
      browseFiles fs c = Outbound.browseRes c.request_id fs.target
        ((if fs.parent != fs.target then [parentEntry fs] else []) ++ browseBody fs items)
        none ∧
      (browseBody fs items).Perm ((items.filter keepEntry).map (toFileEntry fs.target)) ∧
      ((∀ it ∈ items, it.name ≠ "..") →
        items.filter keepEntry = items.filter (fun it => !(startsDot it.name))) ∧
      (browseBody fs items).Pairwise (fun a b => entryCmp a b ≠ Ordering.gt) ∧
      (browseBody fs items).Pairwise (fun a b => b.isDirectory = true → a.isDirectory = true) ∧
      (browseBody fs items).Pairwise
        (fun a b => a.isDirectory = b.isDirectory → localeOrd a.name b.name ≠ Ordering.gt)) ∧
    (∀ (fs : FsModel) (c : Command) (e : String), fs.entries = Except.error e →
      browseFiles fs c = Outbound.browseRes c.request_id fs.target [] (some e)) ∧
    browseFiles exampleFs exampleCmd = Outbound.browseRes "r9" "/home/u/dir"
      [ { name := "..", path := "/home/u", isDirectory := true }
      , { name := "A", path := "/home/u/dir/A", isDirectory := false }
      , { name := "a.txt", path := "/home/u/dir/a.txt", isDirectory := false }
      , { name := "b.txt", path := "/home/u/dir/b.txt", isDirectory := false } ] none := by
  refine ⟨?_, ?_, ?_⟩
  · intro fs c items hok
    refine ⟨?_, sortEntries_perm _, filter_keepEntry_eq items, pairwise_sortEntries _, ?_, ?_⟩
    · cases hroot : fs.parent != fs.target <;> simp [browseFiles, hok, hroot, browseBody]
    · refine (pairwise_sortEntries _).imp ?_
      intro a b hab
      intro hbdir
      by_contra hadir
      have ha' : a.isDirectory = false := by
        cases hA : a.isDirectory
        · rfl
        · exact absurd hA hadir
      simp [entryCmp, ha', hbdir] at hab
    · refine (pairwise_sortEntries _).imp ?_
      intro a b hab
      intro heq
      simpa [entryCmp, heq] using hab
  · intro fs c e herr
    simp [browseFiles, herr]
  · decide

/-- C8 witness: the structural conjuncts instantiated on the example
directory and on a failing readdir. -/
theorem c8_file_browse_listing_witness :
    browseFiles exampleFs exampleCmd = Outbound.browseRes exampleCmd.request_id exampleFs.target
      ((if exampleFs.parent != exampleFs.target then [parentEntry exampleFs] else []) ++
        browseBody exampleFs exampleItems) none ∧
    browseFiles fsErr exampleCmd
      = Outbound.browseRes exampleCmd.request_id fsErr.target [] (some "EACCES") :=
  ⟨(c8_file_browse_listing.1 exampleFs exampleCmd exampleItems rfl).1,
   c8_file_browse_listing.2.1 fsErr exampleCmd "EACCES" rfl⟩
